import Mathlib

/-!
Verification of the deep-researcher recursive research engine
(`company-researcher/lib/deep-research` and `lib/synthesis`).

The TypeScript source is shallowly embedded: strings are Lean `String`s
(JS `.length` is modelled as the length of the underlying character list),
asynchronous fallible calls are `Except String` values, the external LLM
and search capabilities are abstract functions gathered in environment
structures, and JS `Number` arithmetic on the (non-negative) breadth/depth
counters is `Nat` arithmetic.
-/

/-- JS `s.length` (number of characters of the string). -/
def jsLength (s : String) : Nat := s.data.length

/-- JS `s.slice(0, n)` (first `n` characters of the string). -/
def jsSlice (s : String) (n : Nat) : String := ⟨s.data.take n⟩

/-- Constant `MinChunkSize` from `ai/providers.ts`. -/
def MinChunkSize : Nat := 140

/-- Modelled from the spec: `RecursiveCharacterTextSplitter.splitText`
(the module `ai/text-splitter.ts` is imported by `providers.ts` but is not
among the provided sources).  The spec describes a structure-aware splitter
producing chunks targeting the computed chunk size with zero overlap, of
which only the first chunk is used; it is modelled as the partition of the
text into consecutive pieces of `chunkSize` characters. -/
def splitText (chunkSize : Nat) (text : String) : List String :=
  if h : text.data = [] ∨ chunkSize = 0 then []
  else jsSlice text chunkSize :: splitText chunkSize ⟨text.data.drop chunkSize⟩
termination_by jsLength text
decreasing_by
  push_neg at h
  simp only [jsLength, List.length_drop]
  have h1 : text.data ≠ [] := h.1
  have h2 : chunkSize ≠ 0 := h.2
  have : 0 < text.data.length := List.length_pos.mpr h1
  omega

/-- Function `trimPrompt` from `ai/providers.ts`, parametric in the token counter
`tok` (the source uses the external `js-tiktoken` `o200k_base` encoder,
an out-of-scope vendor capability: `tok prompt` models
`encoder.encode(prompt).length`). -/
def trimPrompt (tok : String → Nat) (contextSize : Nat) (prompt : String) : String :=
  if _h0 : prompt = "" then ""
  else
    let length := tok prompt
    if _h1 : length ≤ contextSize then prompt
    else
      let overflowTokens := length - contextSize
      let chunkSize := jsLength prompt - overflowTokens * 3
      if _h2 : chunkSize < MinChunkSize then jsSlice prompt MinChunkSize
      else
        let trimmedPrompt := (splitText chunkSize prompt).headD ""
        if _h3 : jsLength trimmedPrompt = jsLength prompt then
          trimPrompt tok contextSize (jsSlice prompt chunkSize)
        else
          trimPrompt tok contextSize trimmedPrompt
termination_by jsLength prompt
decreasing_by
  · -- hard-cut recursion: the slice is strictly shorter than the prompt
    simp only [jsLength, jsSlice, List.length_take]
    have hne : prompt.data ≠ [] := fun hd => _h0 (by cases prompt; cases hd; rfl)
    have hpos : 0 < prompt.data.length := List.length_pos.mpr hne
    simp only [MinChunkSize] at _h2
    omega
  · -- splitter recursion: the first chunk is strictly shorter than the prompt
    have hle : jsLength ((splitText (jsLength prompt - (tok prompt - contextSize) * 3) prompt).headD "")
        ≤ jsLength prompt := by
      rw [splitText]
      split
      · simp [jsLength]
      · simp only [List.headD_cons, jsLength, jsSlice, List.length_take]
        omega
    have hd : jsLength trimmedPrompt
        = jsLength ((splitText (jsLength prompt - (tok prompt - contextSize) * 3) prompt).headD "") := rfl
    omega

/-- A concrete deterministic tokenization count: one unit per character
(used to exhibit inputs on which the hard-truncation branch ignores the
unit budget). -/
def charTok (s : String) : Nat := s.data.length

/-- Equality `s = ""` holds exactly when its character list is empty. -/
theorem stringEqEmptyIff (s : String) : s = "" ↔ s.data = [] :=
  ⟨fun h => h ▸ rfl, fun h => by cases s; cases h; rfl⟩

/-- On a non-empty text with a positive chunk size, the first chunk the
splitter model returns is the `chunkSize`-character slice of the text. -/
theorem splitText_headD (c : Nat) (s : String) (hs : s.data ≠ []) (hc : c ≠ 0) :
    (splitText c s).headD "" = jsSlice s c := by
  rw [splitText, dif_neg (by simp [hs, hc])]
  rfl

/-- Evaluating the Content Reducer on the empty string gives the empty string. -/
theorem trimPrompt_empty_eval (tok : String → Nat) (contextSize : Nat) :
    trimPrompt tok contextSize "" = "" := by
  rw [trimPrompt]; simp

/-- C1 (amended): for every tokenizer that measures the empty string as 0,
every unit budget and every input text, the Content Reducer output is never
longer than the input, is empty exactly when the input is empty, and its
measured token length is at most the budget unless the terminal
hard-truncation branch was taken, in which case the output is at most
`MinChunkSize = 140` characters (whose token count may exceed the budget). -/
theorem trimPrompt_reduce_spec (tok : String → Nat) (contextSize : Nat) (htok : tok "" = 0)
    (prompt : String) :
    jsLength (trimPrompt tok contextSize prompt) ≤ jsLength prompt ∧
    (trimPrompt tok contextSize prompt = "" ↔ prompt = "") ∧
    (tok (trimPrompt tok contextSize prompt) ≤ contextSize ∨
      jsLength (trimPrompt tok contextSize prompt) ≤ MinChunkSize) := by
  suffices H : ∀ n p, jsLength p ≤ n →
      jsLength (trimPrompt tok contextSize p) ≤ jsLength p ∧
      (trimPrompt tok contextSize p = "" ↔ p = "") ∧
      (tok (trimPrompt tok contextSize p) ≤ contextSize ∨
        jsLength (trimPrompt tok contextSize p) ≤ MinChunkSize) from
    H (jsLength prompt) prompt le_rfl
  intro n
  induction n with
  | zero =>
      intro p hp
      have h0 : p = "" := by
        rw [stringEqEmptyIff]
        exact List.length_eq_zero.mp (Nat.le_zero.mp hp)
      subst h0
      rw [trimPrompt_empty_eval]
      exact ⟨le_refl _, Iff.rfl, Or.inl (by rw [htok]; exact Nat.zero_le _)⟩
  | succ n ih =>
      intro p hp
      by_cases h0 : p = ""
      · subst h0
        rw [trimPrompt_empty_eval]
        exact ⟨le_refl _, Iff.rfl, Or.inl (by rw [htok]; exact Nat.zero_le _)⟩
      have hxd : p.data ≠ [] := fun hd => h0 ((stringEqEmptyIff p).mpr hd)
      have hppos : 0 < jsLength p := List.length_pos.mpr hxd
      by_cases h1 : tok p ≤ contextSize
      · have he : trimPrompt tok contextSize p = p := by
          rw [trimPrompt]; simp [h0, h1]
        rw [he]
        exact ⟨le_refl _, Iff.rfl, Or.inl h1⟩
      by_cases h2 : jsLength p - (tok p - contextSize) * 3 < MinChunkSize
      · have he : trimPrompt tok contextSize p = jsSlice p MinChunkSize := by
          rw [trimPrompt]; simp [h0, h1, h2]
        rw [he]
        refine ⟨?_, ?_, Or.inr ?_⟩
        · simp [jsLength, jsSlice, List.length_take]
        · simp [stringEqEmptyIff, jsSlice, List.take_eq_nil_iff, hxd, MinChunkSize]
        · simp [jsLength, jsSlice, List.length_take]
      · have hc0 : jsLength p - (tok p - contextSize) * 3 ≠ 0 := by
          simp only [MinChunkSize] at h2; omega
        have hhead : (splitText (jsLength p - (tok p - contextSize) * 3) p).headD ""
            = jsSlice p (jsLength p - (tok p - contextSize) * 3) :=
          splitText_headD _ _ hxd hc0
        have hlen : jsLength (jsSlice p (jsLength p - (tok p - contextSize) * 3)) < jsLength p := by
          have hov : contextSize < tok p := Nat.lt_of_not_le h1
          simp only [jsLength, jsSlice, List.length_take]
          simp only [jsLength] at hppos ⊢
          omega
        have h3 : ¬ jsLength ((splitText (jsLength p - (tok p - contextSize) * 3) p).headD "")
            = jsLength p := by
          rw [hhead]; omega
        have he : trimPrompt tok contextSize p
            = trimPrompt tok contextSize (jsSlice p (jsLength p - (tok p - contextSize) * 3)) := by
          rw [trimPrompt]
          simp only [dif_neg h0, dif_neg h1, dif_neg h2, dif_neg h3, hhead]
          split <;> rfl
        obtain ⟨ih1, ih2, ih3⟩ := ih (jsSlice p (jsLength p - (tok p - contextSize) * 3))
          (by omega)
        rw [he]
        refine ⟨le_trans ih1 (le_of_lt hlen), ?_, ih3⟩
        rw [ih2]
        simp [stringEqEmptyIff, jsSlice, List.take_eq_nil_iff, hxd, hc0]

/-- C1 counterexample: the claim as stated is false.  With the
one-unit-per-character tokenizer, budget `maxUnits = 1` and text `"ab"`,
the computed target character count `2 - (2 - 1) * 3` falls below the
140-character minimum, so the terminal hard-truncation branch returns
`"ab".slice(0, 140) = "ab"`, whose measured length is `2 > 1`: the
hard-truncation branch does not re-check the unit budget. -/
theorem trimPrompt_budget_claim_false :
    ¬ ∀ (tok : String → Nat) (maxUnits : Nat) (text : String),
        tok (trimPrompt tok maxUnits text) ≤ maxUnits ∧
        (trimPrompt tok maxUnits text = "" → text = "") := by
  intro hclaim
  have he : trimPrompt charTok 1 "ab" = "ab" := by
    rw [trimPrompt]
    norm_num [charTok, jsLength, jsSlice, MinChunkSize]
    exact fun h => absurd h (by decide)
  have h2 := (hclaim charTok 1 "ab").1
  rw [he] at h2
  exact absurd h2 (by decide)

/-- C1 witness: the amended theorem applied at the concrete tokenizer
`charTok`, budget 5 and text "abc". -/
theorem trimPrompt_reduce_spec_witness :
    charTok "" = 0 ∧
    (jsLength (trimPrompt charTok 5 "abc") ≤ jsLength "abc" ∧
     (trimPrompt charTok 5 "abc" = "" ↔ "abc" = "") ∧
     (charTok (trimPrompt charTok 5 "abc") ≤ 5 ∨
       jsLength (trimPrompt charTok 5 "abc") ≤ MinChunkSize)) :=
  ⟨rfl, trimPrompt_reduce_spec charTok 5 rfl "abc"⟩

/-- A planned sub-query (`deep-research.ts` zod schema of `generateSerpQueries`). -/
structure SerpQuery where
  query : String
  researchGoal : String
deriving DecidableEq, Repr

/-- One item of an Exa search response; the source tolerates missing
`url`/`text` fields (they are filtered out with `compact`). -/
structure SearchResult where
  url : Option String
  text : Option String
deriving DecidableEq, Repr

/-- Output shape of `processSerpResult` (zod schema). -/
structure ProcessedSerpResult where
  learnings : List String
  followUpQuestions : List String
deriving DecidableEq, Repr

/-- Type `ResearchResult` from `deep-research.ts`. -/
structure ResearchResult where
  learnings : List String
  visitedUrls : List String
deriving DecidableEq, Repr

/-- Type `ResearchProgress` from `deep-research.ts`. -/
structure ResearchProgress where
  currentDepth : Nat
  totalDepth : Nat
  currentBreadth : Nat
  totalBreadth : Nat
  currentQuery : Option String
  totalQueries : Nat
  completedQueries : Nat
deriving DecidableEq, Repr

/-- The external capabilities consumed by the Expansion Controller:
`tok` is the tokenizer used by `trimPrompt`; `plan` models the
`generateObject` call inside `generateSerpQueries`; `search` models
`exa.searchAndContents`; `extract` models the `generateObject` call inside
`processSerpResult` (receiving the sub-query, the original query, the
trimmed contents and the two caps that are embedded in its prompt and
schema).  An `Except.error` value models a rejected promise (including
timeouts). -/
structure ResearchEnv where
  tok : String → Nat
  plan : String → String → List String → Nat → Except String (List SerpQuery)
  search : String → Except String (List SearchResult)
  extract : String → String → List String → Nat → Nat → Except String ProcessedSerpResult

/-- JS `Array.from(new Set(xs))`: keep the first occurrence of each value. -/
def jsSetDedup {α : Type} [DecidableEq α] (l : List α) : List α :=
  l.foldl (fun acc x => if x ∈ acc then acc else acc ++ [x]) []

/-- JS `Math.ceil(breadth / 2)` on a non-negative integer. -/
def ceilHalf (breadth : Nat) : Nat := (breadth + 1) / 2

/-- Function `generateSerpQueries` from `deep-research.ts`: ask the LLM capability
for at most `numQueries` queries and slice the answer to `numQueries`. -/
def generateSerpQueries (env : ResearchEnv) (query originalQuery : String)
    (learnings : List String) (numQueries : Nat) : Except String (List SerpQuery) :=
  (env.plan query originalQuery learnings numQueries).map (fun qs => qs.take numQueries)

/-- Function `processSerpResult` from `deep-research.ts`: trim each present `text`
to 25000 units, then call the LLM capability; its typed output is returned
unchanged. -/
def processSerpResult (env : ResearchEnv) (query originalQuery : String)
    (result : List SearchResult) (numLearnings numFollowUpQuestions : Nat) :
    Except String ProcessedSerpResult :=
  let contents := (result.filterMap (fun r => r.text)).map
    (fun t => trimPrompt env.tok 25000 t)
  env.extract query originalQuery contents numLearnings numFollowUpQuestions

/-- The reformulated query built before the recursive call
(`deep-research.ts` lines 574-577). -/
def nextQueryOf (sq : SerpQuery) (followUpQuestions : List String) : String :=
  "Previous research goal: " ++ sq.researchGoal ++
    "\nFollow-up research directions: " ++
    String.join (followUpQuestions.map (fun q => "\n" ++ q))

/-- Function `reportProgress`: apply the field update to the mutable progress
object and hand the object to the observer.  The observer `obs` models
`onProgress` together with any mutation it performs on the shared progress
object (the identity function models an absent or purely passive
observer). -/
def reportProgress (obs : ResearchProgress → ResearchProgress)
    (progress : ResearchProgress) (update : ResearchProgress → ResearchProgress) :
    ResearchProgress :=
  obs (update progress)

mutual

/-- Function `deepResearch` from `deep-research.ts`.  Branches are evaluated in
order (the `pLimit`-bounded `Promise.all` returns branch results in list
order, so the merged value is the same); the mutable `progress` object is
threaded through the branches. -/
def deepResearch (env : ResearchEnv) (obs : ResearchProgress → ResearchProgress)
    (query originalQuery : String) (breadth depth : Nat)
    (learnings visitedUrls : List String) : Except String ResearchResult :=
  let progress : ResearchProgress :=
    { currentDepth := depth, totalDepth := depth, currentBreadth := breadth,
      totalBreadth := breadth, currentQuery := none, totalQueries := 0,
      completedQueries := 0 }
  match generateSerpQueries env query originalQuery learnings breadth with
  | .error e => .error e
  | .ok serpQueries =>
    let progress1 := reportProgress obs progress (fun p =>
      { p with totalQueries := serpQueries.length,
               currentQuery := serpQueries.head?.map (fun sq => sq.query) })
    let results := runBranches env obs originalQuery breadth depth learnings
      visitedUrls progress1 serpQueries
    .ok { learnings := jsSetDedup (results.fst.flatMap (fun r => r.learnings)),
          visitedUrls := jsSetDedup (results.fst.flatMap (fun r => r.visitedUrls)) }
termination_by (depth, 2, 0)

/-- Sequential evaluation of the fanned-out branches, threading the shared
progress object; returns the list of branch contributions in order. -/
def runBranches (env : ResearchEnv) (obs : ResearchProgress → ResearchProgress)
    (originalQuery : String) (breadth depth : Nat)
    (learnings visitedUrls : List String) (progress : ResearchProgress) :
    List SerpQuery → List ResearchResult × ResearchProgress
  | [] => ([], progress)
  | sq :: rest =>
    let rp := runBranch env obs originalQuery breadth depth learnings visitedUrls
      progress sq
    let rest' := runBranches env obs originalQuery breadth depth learnings
      visitedUrls rp.snd rest
    (rp.fst :: rest'.fst, rest'.snd)
termination_by qs => (depth, 1, qs.length + 1)

/-- One fanned-out branch (the body of the `limit(async () => ...)`
closure): search, extract, then either recurse or terminate; any failure
(search, extraction or recursive descent) is caught and the branch
contributes the empty result. -/
def runBranch (env : ResearchEnv) (obs : ResearchProgress → ResearchProgress)
    (originalQuery : String) (breadth depth : Nat)
    (learnings visitedUrls : List String) (progress : ResearchProgress)
    (sq : SerpQuery) : ResearchResult × ResearchProgress :=
  match env.search (sq.query ++ ":") with
  | .error _ => ({ learnings := [], visitedUrls := [] }, progress)
  | .ok result =>
    let newUrls := result.filterMap (fun r => r.url)
    let newBreadth := ceilHalf breadth
    let newDepth := depth - 1
    match processSerpResult env sq.query originalQuery result 3 newBreadth with
    | .error _ => ({ learnings := [], visitedUrls := [] }, progress)
    | .ok newLearnings =>
      let allLearnings := learnings ++ newLearnings.learnings
      let allUrls := visitedUrls ++ newUrls
      if _h : 0 < newDepth then
        let progress' := reportProgress obs progress (fun p =>
          { p with currentDepth := newDepth, currentBreadth := newBreadth,
                   completedQueries := p.completedQueries + 1,
                   currentQuery := some sq.query })
        match deepResearch env obs (nextQueryOf sq newLearnings.followUpQuestions)
            originalQuery newBreadth newDepth allLearnings allUrls with
        | .error _ => ({ learnings := [], visitedUrls := [] }, progress')
        | .ok r => (r, progress')
      else
        let progress' := reportProgress obs progress (fun p =>
          { p with currentDepth := 0,
                   completedQueries := p.completedQueries + 1,
                   currentQuery := some sq.query })
        ({ learnings := allLearnings, visitedUrls := allUrls }, progress')
termination_by (depth, 0, 0)

end

/-- Insertion-order set semantics produce a duplicate-free list. -/
theorem jsSetDedup_nodup {α : Type} [DecidableEq α] (l : List α) :
    (jsSetDedup l).Nodup := by
  suffices H : ∀ acc : List α, acc.Nodup →
      (l.foldl (fun acc x => if x ∈ acc then acc else acc ++ [x]) acc).Nodup from
    H [] List.nodup_nil
  induction l with
  | nil => intro acc h; exact h
  | cons x xs ih =>
      intro acc h
      simp only [List.foldl_cons]
      by_cases hx : x ∈ acc
      · rw [if_pos hx]; exact ih acc h
      · rw [if_neg hx]
        exact ih _ (by simp [List.nodup_append, h, hx])

/-- C4: every successful result of the Expansion Controller contains no
duplicate learning values and no duplicate visited-URL values, whatever the
environment and branch outcomes are. -/
theorem deepResearch_nodup (env : ResearchEnv) (obs : ResearchProgress → ResearchProgress)
    (query originalQuery : String) (breadth depth : Nat)
    (learnings visitedUrls : List String) (r : ResearchResult)
    (h : deepResearch env obs query originalQuery breadth depth learnings visitedUrls = .ok r) :
    r.learnings.Nodup ∧ r.visitedUrls.Nodup := by
  rw [deepResearch] at h
  cases hq : generateSerpQueries env query originalQuery learnings breadth with
  | error e => rw [hq] at h; cases h
  | ok qs =>
      rw [hq] at h
      simp only [Except.ok.injEq] at h
      subst h
      exact ⟨jsSetDedup_nodup _, jsSetDedup_nodup _⟩

/-- An environment with no reachable search or model capability whose
planner returns no sub-queries. -/
def emptyPlanEnv : ResearchEnv :=
  { tok := charTok,
    plan := fun _ _ _ _ => .ok [],
    search := fun _ => .error "offline",
    extract := fun _ _ _ _ _ => .error "offline" }

/-- C4 witness: the deduplication theorem applied to a concrete run. -/
theorem deepResearch_nodup_witness :
    deepResearch emptyPlanEnv id "q" "q" 2 1 [] []
      = .ok { learnings := [], visitedUrls := [] } ∧
    (ResearchResult.mk [] []).learnings.Nodup ∧
    (ResearchResult.mk [] []).visitedUrls.Nodup := by
  have he : deepResearch emptyPlanEnv id "q" "q" 2 1 [] []
      = .ok { learnings := [], visitedUrls := [] } := by
    rw [deepResearch]
    simp [generateSerpQueries, emptyPlanEnv, reportProgress, runBranches, jsSetDedup,
      Except.map]
  exact ⟨he, deepResearch_nodup _ _ _ _ _ _ _ _ _ he⟩

mutual

/-- Number of nested Expansion Controller invocations along the deepest
path of one `deepResearch` call, mirroring its recursion structure. -/
def researchLevels (env : ResearchEnv) (query originalQuery : String)
    (breadth depth : Nat) (learnings visitedUrls : List String) : Nat :=
  match generateSerpQueries env query originalQuery learnings breadth with
  | .error _ => 1
  | .ok serpQueries =>
      1 + branchesLevels env originalQuery breadth depth learnings visitedUrls serpQueries
termination_by (depth, 2, 0)

/-- Deepest nesting over a list of fanned-out branches. -/
def branchesLevels (env : ResearchEnv) (originalQuery : String) (breadth depth : Nat)
    (learnings visitedUrls : List String) : List SerpQuery → Nat
  | [] => 0
  | sq :: rest =>
      max (branchLevels env originalQuery breadth depth learnings visitedUrls sq)
        (branchesLevels env originalQuery breadth depth learnings visitedUrls rest)
termination_by qs => (depth, 1, qs.length + 1)

/-- Nesting contributed by one branch: a branch only recurses when its
search and extraction succeed and `newDepth = depth - 1` is positive. -/
def branchLevels (env : ResearchEnv) (originalQuery : String) (breadth depth : Nat)
    (learnings visitedUrls : List String) (sq : SerpQuery) : Nat :=
  match env.search (sq.query ++ ":") with
  | .error _ => 0
  | .ok result =>
    match processSerpResult env sq.query originalQuery result 3 (ceilHalf breadth) with
    | .error _ => 0
    | .ok newLearnings =>
      if _h : 0 < depth - 1 then
        researchLevels env (nextQueryOf sq newLearnings.followUpQuestions) originalQuery
          (ceilHalf breadth) (depth - 1) (learnings ++ newLearnings.learnings)
          (visitedUrls ++ result.filterMap (fun r => r.url))
      else 0
termination_by (depth, 0, 0)

end

/-- C3: the Expansion Controller terminates within its depth budget: for
every environment the nesting of recursive `deepResearch` invocations is at
most `depth + 1` (so no invocation recurses more than `depth` levels), and
the halved breadth `ceilHalf breadth = ceil(breadth / 2)` passed to each
recursive call never exceeds the current breadth. -/
theorem deepResearch_depth_bound (env : ResearchEnv) (query originalQuery : String)
    (breadth depth : Nat) (learnings visitedUrls : List String) :
    researchLevels env query originalQuery breadth depth learnings visitedUrls ≤ depth + 1 ∧
    ceilHalf breadth ≤ breadth := by
  constructor
  · have H : ∀ d q o b ls us, researchLevels env q o b d ls us ≤ d + 1 := by
      intro d
      induction d using Nat.strong_induction_on with
      | _ d ih =>
        intro q o b ls us
        have hb : ∀ qs, branchesLevels env o b d ls us qs ≤ d := by
          intro qs
          induction qs with
          | nil => rw [branchesLevels]; omega
          | cons sq rest ihq =>
              rw [branchesLevels]
              refine max_le ?_ ihq
              rw [branchLevels]
              split
              · omega
              · split
                · omega
                · split
                  · next hd =>
                      exact le_trans (ih (d - 1) (by omega) _ _ _ _ _) (by omega)
                  · omega
        rw [researchLevels]
        split
        · omega
        · next qs hqs =>
            have := hb qs
            omega
    exact H depth query originalQuery breadth learnings visitedUrls
  · simp only [ceilHalf]
    omega

/-- Branch results never depend on the threaded progress object or on the
observer: progress snapshots are written and emitted but never read back
into the result computation.  (Levels of the three mutually recursive
functions, proved simultaneously by strong induction on depth.) -/
theorem progress_obs_irrelevant : ∀ d : Nat,
    (∀ (env : ResearchEnv) (o : String) (b : Nat) (ls us : List String)
        (obs₁ obs₂ : ResearchProgress → ResearchProgress) (p₁ p₂ : ResearchProgress)
        (sq : SerpQuery),
      (runBranch env obs₁ o b d ls us p₁ sq).fst = (runBranch env obs₂ o b d ls us p₂ sq).fst) ∧
    (∀ (env : ResearchEnv) (o : String) (b : Nat) (ls us : List String)
        (obs₁ obs₂ : ResearchProgress → ResearchProgress) (p₁ p₂ : ResearchProgress)
        (qs : List SerpQuery),
      (runBranches env obs₁ o b d ls us p₁ qs).fst
        = (runBranches env obs₂ o b d ls us p₂ qs).fst) ∧
    (∀ (env : ResearchEnv) (obs₁ obs₂ : ResearchProgress → ResearchProgress)
        (q o : String) (b : Nat) (ls us : List String),
      deepResearch env obs₁ q o b d ls us = deepResearch env obs₂ q o b d ls us) := by
  intro d
  induction d using Nat.strong_induction_on with
  | _ d ih =>
    have hB : ∀ (env : ResearchEnv) (o : String) (b : Nat) (ls us : List String)
        (obs₁ obs₂ : ResearchProgress → ResearchProgress) (p₁ p₂ : ResearchProgress)
        (sq : SerpQuery),
        (runBranch env obs₁ o b d ls us p₁ sq).fst
          = (runBranch env obs₂ o b d ls us p₂ sq).fst := by
      intro env o b ls us obs₁ obs₂ p₁ p₂ sq
      rw [runBranch]
      rw [runBranch]
      cases hs : env.search (sq.query ++ ":") with
      | error e => rfl
      | ok result =>
        dsimp only
        cases hp : processSerpResult env sq.query o result 3 (ceilHalf b) with
        | error e => rfl
        | ok nl =>
          dsimp only
          by_cases hd : 0 < d - 1
          · simp only [dif_pos hd]
            rw [(ih (d - 1) (by omega)).2.2 env obs₁ obs₂
              (nextQueryOf sq nl.followUpQuestions) o (ceilHalf b) (ls ++ nl.learnings)
              (us ++ result.filterMap (fun r => r.url))]
            cases deepResearch env obs₂ (nextQueryOf sq nl.followUpQuestions) o (ceilHalf b)
              (d - 1) (ls ++ nl.learnings) (us ++ result.filterMap (fun r => r.url)) <;> rfl
          · simp only [dif_neg hd]
    have hBs : ∀ (env : ResearchEnv) (o : String) (b : Nat) (ls us : List String)
        (obs₁ obs₂ : ResearchProgress → ResearchProgress) (p₁ p₂ : ResearchProgress)
        (qs : List SerpQuery),
        (runBranches env obs₁ o b d ls us p₁ qs).fst
          = (runBranches env obs₂ o b d ls us p₂ qs).fst := by
      intro env o b ls us obs₁ obs₂ p₁ p₂ qs
      induction qs generalizing p₁ p₂ with
      | nil => rw [runBranches, runBranches]
      | cons sq rest ihq =>
          rw [runBranches]
          rw [runBranches]
          dsimp only
          rw [hB env o b ls us obs₁ obs₂ p₁ p₂ sq, ihq]
    have hD : ∀ (env : ResearchEnv) (obs₁ obs₂ : ResearchProgress → ResearchProgress)
        (q o : String) (b : Nat) (ls us : List String),
        deepResearch env obs₁ q o b d ls us = deepResearch env obs₂ q o b d ls us := by
      intro env obs₁ obs₂ q o b ls us
      rw [deepResearch]
      rw [deepResearch]
      cases hg : generateSerpQueries env q o ls b with
      | error e => rfl
      | ok qs =>
          dsimp only
          rw [hBs env o b ls us obs₁ obs₂ _ _ qs]
    exact ⟨hB, hBs, hD⟩

/-- C9: the research result is identical for any two observers (including
an absent one, modelled by the identity): progress snapshots are emitted to
the observer but never read back into control flow. -/
theorem deepResearch_observer_independent (env : ResearchEnv)
    (obs₁ obs₂ : ResearchProgress → ResearchProgress) (query originalQuery : String)
    (breadth depth : Nat) (learnings visitedUrls : List String) :
    deepResearch env obs₁ query originalQuery breadth depth learnings visitedUrls
      = deepResearch env obs₂ query originalQuery breadth depth learnings visitedUrls :=
  (progress_obs_irrelevant depth).2.2 env obs₁ obs₂ query originalQuery breadth
    learnings visitedUrls

/-- Does the `try` block of a fanned-out branch raise?  True exactly when
the branch search fails, the extraction fails, or the recursive descent
(entered only when `depth - 1 > 0`) returns an error. -/
def branchRaises (env : ResearchEnv) (obs : ResearchProgress → ResearchProgress)
    (originalQuery : String) (breadth depth : Nat)
    (learnings visitedUrls : List String) (sq : SerpQuery) : Bool :=
  match env.search (sq.query ++ ":") with
  | .error _ => true
  | .ok result =>
    match processSerpResult env sq.query originalQuery result 3 (ceilHalf breadth) with
    | .error _ => true
    | .ok newLearnings =>
      if 0 < depth - 1 then
        match deepResearch env obs (nextQueryOf sq newLearnings.followUpQuestions)
            originalQuery (ceilHalf breadth) (depth - 1)
            (learnings ++ newLearnings.learnings)
            (visitedUrls ++ result.filterMap (fun r => r.url)) with
        | .error _ => true
        | .ok _ => false
      else false

/-- A raising branch contributes the empty result, whatever the threaded
progress object is. -/
theorem runBranch_fst_of_raises (env : ResearchEnv)
    (obs : ResearchProgress → ResearchProgress) (o : String) (b d : Nat)
    (ls us : List String) (p : ResearchProgress) (sq : SerpQuery)
    (h : branchRaises env obs o b d ls us sq = true) :
    (runBranch env obs o b d ls us p sq).fst = { learnings := [], visitedUrls := [] } := by
  rw [branchRaises] at h
  rw [runBranch]
  cases hs : env.search (sq.query ++ ":") with
  | error e => rfl
  | ok result =>
    rw [hs] at h
    dsimp only at h ⊢
    cases hp : processSerpResult env sq.query o result 3 (ceilHalf b) with
    | error e => rfl
    | ok nl =>
      rw [hp] at h
      dsimp only at h ⊢
      by_cases hd : 0 < d - 1
      · rw [if_pos hd] at h
        simp only [dif_pos hd]
        cases hr : deepResearch env obs (nextQueryOf sq nl.followUpQuestions) o
            (ceilHalf b) (d - 1) (ls ++ nl.learnings)
            (us ++ result.filterMap (fun r => r.url)) with
        | error e => rfl
        | ok r => rw [hr] at h; cases h
      · rw [if_neg hd] at h
        cases h

/-- C5: a fanned-out branch in which search, extraction or the recursive
descent raises contributes exactly the empty result to the merge (the
exception is absorbed, not re-raised), and the surrounding fan-out equals
the sibling contributions unchanged with the empty contribution in the
failing branch's position. -/
theorem deepResearch_branch_failure_isolated (env : ResearchEnv)
    (obs : ResearchProgress → ResearchProgress) (originalQuery : String)
    (breadth depth : Nat) (learnings visitedUrls : List String)
    (progress : ResearchProgress) (sq : SerpQuery) (qs₁ qs₂ : List SerpQuery)
    (h : branchRaises env obs originalQuery breadth depth learnings visitedUrls sq = true) :
    (runBranch env obs originalQuery breadth depth learnings visitedUrls progress sq).fst
      = { learnings := [], visitedUrls := [] } ∧
    (runBranches env obs originalQuery breadth depth learnings visitedUrls progress
        (qs₁ ++ sq :: qs₂)).fst
      = (runBranches env obs originalQuery breadth depth learnings visitedUrls progress
          qs₁).fst
        ++ { learnings := [], visitedUrls := [] }
        :: (runBranches env obs originalQuery breadth depth learnings visitedUrls progress
            qs₂).fst := by
  refine ⟨runBranch_fst_of_raises _ _ _ _ _ _ _ _ _ h, ?_⟩
  have hnil : ∀ p : ResearchProgress,
      (runBranches env obs originalQuery breadth depth learnings visitedUrls p []).fst
        = [] := by
    intro p; rw [runBranches]
  have hirr := (progress_obs_irrelevant depth).2.1 env originalQuery breadth learnings
    visitedUrls obs obs
  induction qs₁ generalizing progress with
  | nil =>
      rw [List.nil_append, hnil, List.nil_append]
      rw [runBranches]
      dsimp only
      rw [runBranch_fst_of_raises _ _ _ _ _ _ _ _ _ h]
      rw [hirr _ progress qs₂]
  | cons q rest ih =>
      rw [List.cons_append]
      rw [runBranches]
      rw [runBranches]
      dsimp only
      rw [ih]
      rw [List.cons_append]
      rw [hirr _ progress qs₂]

/-- When every branch of a fan-out raises, the branch contributions are all
empty. -/
theorem runBranches_fst_all_raise (env : ResearchEnv)
    (obs : ResearchProgress → ResearchProgress) (o : String) (b d : Nat)
    (ls us : List String) :
    ∀ (qs : List SerpQuery) (p : ResearchProgress),
      (∀ sq ∈ qs, branchRaises env obs o b d ls us sq = true) →
      (runBranches env obs o b d ls us p qs).fst
        = qs.map (fun _ => ({ learnings := [], visitedUrls := [] } : ResearchResult)) := by
  intro qs
  induction qs with
  | nil => intro p _; rw [runBranches]; rfl
  | cons sq rest ih =>
      intro p hall
      rw [runBranches]
      dsimp only
      rw [runBranch_fst_of_raises _ _ _ _ _ _ _ _ _ (hall sq (by simp))]
      rw [ih _ (fun x hx => hall x (by simp [hx]))]
      rfl

/-- C10: if every fanned-out branch of an invocation raises, the invocation
returns the empty result even when its input `learnings`/`visitedUrls`
accumulators are non-empty — facts carried into the level are discarded. -/
theorem deepResearch_all_branches_raise (env : ResearchEnv)
    (obs : ResearchProgress → ResearchProgress) (query originalQuery : String)
    (breadth depth : Nat) (learnings visitedUrls : List String) (qs : List SerpQuery)
    (hplan : generateSerpQueries env query originalQuery learnings breadth = .ok qs)
    (hfail : ∀ sq ∈ qs,
      branchRaises env obs originalQuery breadth depth learnings visitedUrls sq = true) :
    deepResearch env obs query originalQuery breadth depth learnings visitedUrls
      = .ok { learnings := [], visitedUrls := [] } := by
  rw [deepResearch]
  rw [hplan]
  dsimp only
  rw [runBranches_fst_all_raise env obs originalQuery breadth depth learnings visitedUrls
    qs _ hfail]
  have hflat : ∀ (l : List SerpQuery) (f : ResearchResult → List String),
      f { learnings := [], visitedUrls := [] } = [] →
      ((l.map (fun _ => ({ learnings := [], visitedUrls := [] } : ResearchResult))).flatMap
        f) = [] := by
    intro l f hf
    induction l with
    | nil => rfl
    | cons x xs ihx => simp [ihx, hf]
  rw [hflat _ _ rfl, hflat _ _ rfl]
  rfl

/-- A fixed progress record used for concrete instantiations. -/
def someProgress : ResearchProgress :=
  { currentDepth := 0, totalDepth := 0, currentBreadth := 0, totalBreadth := 0,
    currentQuery := none, totalQueries := 0, completedQueries := 0 }

/-- C5 witness: the branch-failure theorem applied to a concrete
environment whose search capability always raises. -/
theorem deepResearch_branch_failure_isolated_witness :
    (runBranch emptyPlanEnv id "o" 1 1 [] [] someProgress
        { query := "x", researchGoal := "g" }).fst
      = { learnings := [], visitedUrls := [] } ∧
    (runBranches emptyPlanEnv id "o" 1 1 [] [] someProgress
        ([] ++ { query := "x", researchGoal := "g" } :: [])).fst
      = (runBranches emptyPlanEnv id "o" 1 1 [] [] someProgress []).fst
        ++ { learnings := [], visitedUrls := [] }
        :: (runBranches emptyPlanEnv id "o" 1 1 [] [] someProgress []).fst :=
  deepResearch_branch_failure_isolated emptyPlanEnv id "o" 1 1 [] [] someProgress
    { query := "x", researchGoal := "g" } [] [] rfl

/-- An environment that plans one sub-query whose search always raises. -/
def failBranchEnv : ResearchEnv :=
  { tok := charTok,
    plan := fun _ _ _ _ => .ok [{ query := "q1", researchGoal := "g1" }],
    search := fun _ => .error "down",
    extract := fun _ _ _ _ _ => .error "down" }

/-- C10 witness: with non-empty input accumulators and a single branch
whose search raises, the invocation returns the empty result. -/
theorem deepResearch_all_branches_raise_witness :
    deepResearch failBranchEnv id "q" "o" 1 2 ["old fact"] ["http://old"]
      = .ok { learnings := [], visitedUrls := [] } :=
  deepResearch_all_branches_raise failBranchEnv id "q" "o" 1 2 ["old fact"] ["http://old"]
    [{ query := "q1", researchGoal := "g1" }] rfl
    (by
      intro sq hsq
      rw [List.mem_singleton] at hsq
      subst hsq
      rfl)

/-- An environment whose extraction capability returns four learnings even
though the cap passed to it is three. -/
def overCapEnv : ResearchEnv :=
  { tok := charTok,
    plan := fun _ _ _ _ => .error "unused",
    search := fun _ => .error "unused",
    extract := fun _ _ _ _ _ =>
      .ok { learnings := ["l1", "l2", "l3", "l4"], followUpQuestions := [] } }

/-- C7 counterexample: the claim as stated is false.  `processSerpResult`
returns the typed output of the LLM capability unchanged (there is no
`.slice(0, numLearnings)`, unlike `generateSerpQueries`), so when the
capability returns four learnings under a cap of three, the output has
four learnings. -/
theorem processSerpResult_cap_claim_false :
    ¬ ∀ (env : ResearchEnv) (query originalQuery : String) (result : List SearchResult)
        (numLearnings numFollowUpQuestions : Nat) (res : ProcessedSerpResult),
        processSerpResult env query originalQuery result numLearnings numFollowUpQuestions
          = .ok res →
        res.learnings.length ≤ numLearnings ∧
        res.followUpQuestions.length ≤ numFollowUpQuestions := by
  intro hclaim
  have h := (hclaim overCapEnv "q" "o" [] 3 3
    { learnings := ["l1", "l2", "l3", "l4"], followUpQuestions := [] } rfl).1
  simp at h

/-- C7 (amended): the Fact Extractor forwards the caps to the LLM
capability (in its prompt and schema description) but does not truncate the
returned lists; whenever the capability itself honors the caps, the
extractor output honors them. -/
theorem processSerpResult_cap (env : ResearchEnv)
    (hcap : ∀ (q o : String) (c : List String) (nl nf : Nat) (r : ProcessedSerpResult),
      env.extract q o c nl nf = .ok r →
      r.learnings.length ≤ nl ∧ r.followUpQuestions.length ≤ nf)
    (query originalQuery : String) (result : List SearchResult)
    (numLearnings numFollowUpQuestions : Nat) (res : ProcessedSerpResult)
    (h : processSerpResult env query originalQuery result numLearnings
      numFollowUpQuestions = .ok res) :
    res.learnings.length ≤ numLearnings ∧
    res.followUpQuestions.length ≤ numFollowUpQuestions :=
  hcap _ _ _ _ _ _ h

/-- An environment whose extraction capability returns empty lists, hence
honors any caps. -/
def capHonoringEnv : ResearchEnv :=
  { tok := charTok,
    plan := fun _ _ _ _ => .error "unused",
    search := fun _ => .error "unused",
    extract := fun _ _ _ _ _ => .ok { learnings := [], followUpQuestions := [] } }

/-- C7 witness: the amended theorem applied to a cap-honoring environment. -/
theorem processSerpResult_cap_witness :
    (ProcessedSerpResult.mk [] []).learnings.length ≤ 3 ∧
    (ProcessedSerpResult.mk [] []).followUpQuestions.length ≤ 3 :=
  processSerpResult_cap capHonoringEnv
    (fun _ _ _ _ _ r hr => by
      cases hr
      exact ⟨Nat.zero_le _, Nat.zero_le _⟩)
    "q" "o" [] 3 3 { learnings := [], followUpQuestions := [] } rfl

/-- Report tones (`ReportGenerationOptions.tone`). -/
inductive ReportTone
  | academic
  | formal
  | informative
deriving DecidableEq, Repr

/-- Type `ReportGenerationOptions` from `deep-research.ts` (absent optional
fields are `none`). -/
structure ReportGenerationOptions where
  includeCounterarguments : Option Bool := none
  tone : Option ReportTone := none
  maxLength : Option Nat := none
deriving DecidableEq, Repr

/-- One outline section (zod schema of `generateAcademicReportStructure`). -/
structure ReportSection where
  title : String
  content : String
  keyLearningsToInclude : List Nat
deriving DecidableEq, Repr

/-- Outline plus key findings (zod schema of
`generateAcademicReportStructure`). -/
structure ReportStructure where
  sections : List ReportSection
  keyFindings : List String
deriving DecidableEq, Repr

/-- Type `ReportGenerationRequest` from `deep-research.ts`. -/
structure ReportGenerationRequest where
  prompt : String
  originalQuery : String
  learnings : List String
  visitedUrls : List String
  options : Option ReportGenerationOptions := none

/-- Type `ReportGenerationResult` from `deep-research.ts`. -/
structure ReportGenerationResult where
  reportMarkdown : String
  answer : String
  keyFindings : List String
  sources : List String
deriving DecidableEq, Repr

/-- The four LLM calls made by the Report Composer stages, as abstract
fallible capabilities (each receives the semantic inputs embedded in the
corresponding prompt). -/
structure ReportEnv where
  rank : String → List String → Except String (List String)
  deriveAnswer : String → List String → Except String String
  outline : String → String → List String → List String → Bool → Except String ReportStructure
  render : String → String → ReportStructure → List String → List String →
    ReportGenerationOptions → Except String String

/-- Function `analyzeRelevancy` from `deep-research.ts`: on failure, fall back to
the original, unranked learnings. -/
def analyzeRelevancy (env : ReportEnv) (learnings : List String)
    (originalQuery : String) : List String :=
  if learnings = [] then []
  else
    match env.rank originalQuery learnings with
    | .ok ranked => ranked
    | .error _ => learnings

/-- Function `deriveAnswerFromLearnings` from `deep-research.ts`: fixed fallback
strings on empty input and on failure. -/
def deriveAnswerFromLearnings (env : ReportEnv) (learnings : List String)
    (originalQuery : String) : String :=
  if learnings = [] then "Based on the research, no conclusive answer could be determined."
  else
    match env.deriveAnswer originalQuery learnings with
    | .ok a => a
    | .error _ =>
        "Based on the research, no conclusive answer could be determined due to an error in processing."

/-- Function `generateAcademicReportStructure` from `deep-research.ts`: on failure,
fall back to the fixed three-section outline. -/
def generateAcademicReportStructure (env : ReportEnv) (query answer : String)
    (relevantLearnings visitedUrls : List String)
    (includeCounterarguments : Bool) : ReportStructure :=
  match env.outline query answer relevantLearnings visitedUrls includeCounterarguments with
  | .ok s => s
  | .error _ =>
      { sections :=
          [ { title := "Introduction",
              content := "Introduction to the query and answer",
              keyLearningsToInclude := [] },
            { title := "Key Findings",
              content := "Presentation of key findings",
              keyLearningsToInclude :=
                (List.range relevantLearnings.length).map (fun i => i + 1) },
            { title := "Conclusion",
              content := "Summary of findings and reinforcement of the answer",
              keyLearningsToInclude := [] } ],
        keyFindings := relevantLearnings.take 3 }

/-- Function `generateFormattedReport` from `deep-research.ts`: on failure, assemble
the basic model-free report. -/
def generateFormattedReport (env : ReportEnv) (query answer : String)
    (reportStructure : ReportStructure) (relevantLearnings visitedUrls : List String)
    (options : ReportGenerationOptions) : String :=
  match env.render query answer reportStructure relevantLearnings visitedUrls options with
  | .ok r => r
  | .error _ =>
      "# Research Report: " ++ query ++ "\n\n" ++
      "## Answer\n\n" ++ answer ++ "\n\n" ++
      "## Key Findings\n\n" ++
      String.join ((relevantLearnings.take 5).map (fun l => "- " ++ l ++ "\n")) ++
      "\n## Sources\n\n" ++
      String.join (visitedUrls.map (fun u => "- " ++ u ++ "\n"))

/-- JS `s.includes(pat)`. -/
def jsIncludes (s pat : String) : Bool :=
  (List.range (s.data.length + 1)).any
    (fun i => (s.data.drop i).take pat.data.length == pat.data)

/-- Function `writeFinalReport` from `deep-research.ts`: the four stages in order,
then the appended Sources section when missing.  In the source,
`reportStructure.keyFindings || relevantLearnings.slice(0, 5)` always takes
the left operand because a JS array is always truthy. -/
def writeFinalReport (env : ReportEnv) (request : ReportGenerationRequest) :
    ReportGenerationResult :=
  let options := request.options.getD {}
  let relevantLearnings := analyzeRelevancy env request.learnings request.originalQuery
  let answer := deriveAnswerFromLearnings env (relevantLearnings.take 10)
    request.originalQuery
  let reportStructure := generateAcademicReportStructure env request.originalQuery answer
    relevantLearnings request.visitedUrls (options.includeCounterarguments.getD true)
  let report := generateFormattedReport env request.originalQuery answer reportStructure
    relevantLearnings request.visitedUrls options
  let finalReport :=
    if jsIncludes report "## Sources" || jsIncludes report "## References" then report
    else report ++ "\n\n## Sources\n\n"
      ++ String.intercalate "\n" (request.visitedUrls.map (fun u => "- " ++ u))
  { reportMarkdown := finalReport,
    answer := answer,
    keyFindings := reportStructure.keyFindings,
    sources := request.visitedUrls }

/-- JS `"".includes(pat)` is false for a non-empty pattern. -/
theorem jsIncludes_empty (pat : String) (hpat : pat.data ≠ []) :
    jsIncludes "" pat = false := by
  cases hd : pat.data with
  | nil => exact absurd hd hpat
  | cons a l =>
      simp [jsIncludes, hd]

/-- C6: `writeFinalReport` never raises: for every combination of stage
outcomes it returns a result whose `sources` equal the full input
`visitedUrls` and whose report text is non-empty. -/
theorem writeFinalReport_total (env : ReportEnv) (request : ReportGenerationRequest) :
    (writeFinalReport env request).sources = request.visitedUrls ∧
    (writeFinalReport env request).reportMarkdown ≠ "" := by
  refine ⟨rfl, ?_⟩
  unfold writeFinalReport
  dsimp only
  split
  · next hinc =>
      intro hrep
      rw [hrep] at hinc
      rw [jsIncludes_empty _ (by simp), jsIncludes_empty _ (by simp)] at hinc
      cases hinc
  · intro hrep
    rw [stringEqEmptyIff] at hrep
    simp [String.data_append] at hrep

/-- Constant `synthesisSystemPrompt` from `prompt.ts`. -/
def synthesisSystemPrompt : String :=
  "You are an expert writer and summarizer. Your task is to take a list of key learnings from a research process and synthesize them into coherent, well-written prose. Follow these instructions:\n  - Your output should be a narrative, not a list of bullet points.\n  - Combine related learnings into paragraphs.\n  - Ensure smooth transitions between ideas.\n  - Maintain a formal and informative tone.\n  - Do not include any introductory or concluding remarks outside of the synthesized prose itself.\n  - Focus on presenting the information clearly and concisely."

/-- Synthesis tones (`SynthesisOptions.tone`). -/
inductive SynthesisTone
  | formal
  | informative
  | analytical
deriving DecidableEq, Repr

/-- Tone rendered into the prompt text. -/
def SynthesisTone.text : SynthesisTone → String
  | .formal => "formal"
  | .informative => "informative"
  | .analytical => "analytical"

/-- A JS batch-size number: a finite count or `Infinity` (used by the
combining pass to disable further batching). -/
inductive BatchSize
  | fin (n : Nat)
  | inf
deriving DecidableEq, Repr

/-- JS `n > batchSize` (always false for `Infinity`). -/
def BatchSize.ltLen : BatchSize → Nat → Bool
  | .inf, _ => false
  | .fin k, n => k < n

/-- Type `SynthesisOptions` from `synthesisAgent.ts` (absent fields are `none`). -/
structure SynthesisOptions where
  maxLength : Option Nat := none
  tone : Option SynthesisTone := none
  batchSize : Option BatchSize := none
deriving DecidableEq, Repr

/-- Constant `DEFAULT_SYNTHESIS_OPTIONS` from `synthesisAgent.ts`. -/
def DEFAULT_SYNTHESIS_OPTIONS : SynthesisOptions :=
  { tone := some .formal, batchSize := some (.fin 50) }

/-- JS `{...DEFAULT_SYNTHESIS_OPTIONS, ...options}`. -/
def mergedOptions (options : Option SynthesisOptions) : SynthesisOptions :=
  match options with
  | none => DEFAULT_SYNTHESIS_OPTIONS
  | some o =>
      { maxLength := o.maxLength,
        tone := o.tone <|> DEFAULT_SYNTHESIS_OPTIONS.tone,
        batchSize := o.batchSize <|> DEFAULT_SYNTHESIS_OPTIONS.batchSize }

/-- Constant `MAX_PROMPT_TOKENS` from `synthesisAgent.ts`. -/
def MAX_PROMPT_TOKENS : Nat := 8000

/-- Function `buildSynthesisPrompt` from `synthesisAgent.ts` (the `maxLength`
instruction is added only for a truthy, i.e. non-zero, value). -/
def buildSynthesisPrompt (tok : String → Nat) (prompt formattedLearnings : String)
    (options : SynthesisOptions) : String :=
  let p1 := synthesisSystemPrompt ++ "\n\n"
  let p2 :=
    match options.tone with
    | some t => p1 ++ "Maintain a " ++ t.text ++ " tone throughout the synthesis.\n\n"
    | none => p1
  let p3 :=
    match options.maxLength with
    | some (n + 1) =>
        p2 ++ "Keep the synthesis under approximately " ++ toString (n + 1) ++ " words.\n\n"
    | _ => p2
  let completePrompt := p3 ++ "CONTEXT: " ++ prompt ++ "\n\n" ++
    "LEARNINGS TO SYNTHESIZE:\n" ++ formattedLearnings ++ "\n\n" ++
    "Please synthesize these learnings into a cohesive narrative that addresses the context."
  if 100000 < jsLength completePrompt then trimPrompt tok MAX_PROMPT_TOKENS completePrompt
  else completePrompt

/-- The `for (let i = 0; i < learnings.length; i += batchSize)` slicing loop
of `processBatchedLearnings`.  (A zero batch size, impossible at the call
site because JS `0 || 50` coerces it to 50, is guarded to a single chunk.) -/
def chunkList {α : Type} (batchSize : Nat) (l : List α) : List (List α) :=
  match l with
  | [] => []
  | x :: xs =>
    if _h0 : batchSize = 0 then [x :: xs]
    else (x :: xs).take batchSize :: chunkList batchSize ((x :: xs).drop batchSize)
termination_by l.length
decreasing_by
  simp only [List.length_drop, List.length_cons]
  omega

/-- Termination rank of a `synthesizeLearnings` call: calls whose merged
batch size is `Infinity` never re-enter batching. -/
def synRank (options : Option SynthesisOptions) : Nat :=
  match (mergedOptions options).batchSize with
  | some .inf => 0
  | _ => 2

mutual

/-- Function `synthesizeLearnings` from `synthesisAgent.ts`, instrumented with the
number of `callAIModel` invocations (second component).  `ai` is the
abstract model capability. -/
def synthesizeLearnings (ai : String → String) (tok : String → Nat)
    (learnings : List String) (prompt : String) (options : Option SynthesisOptions) :
    String × Nat :=
  if _h : learnings = [] then ("No research findings to synthesize.", 0)
  else
    let mergedOpts := mergedOptions options
    if _hb : (mergedOpts.batchSize.getD (.fin 50)).ltLen learnings.length then
      processBatchedLearnings ai tok learnings prompt mergedOpts
    else
      let formattedLearnings := String.intercalate "\n"
        (learnings.map (fun l => "<learning>" ++ l ++ "</learning>"))
      let completePrompt := buildSynthesisPrompt tok prompt formattedLearnings mergedOpts
      (ai completePrompt, 1)
termination_by (synRank options, 0, 0)
decreasing_by
  · refine Prod.Lex.left _ _ ?_
    have h2 : synRank options = 2 := by
      unfold synRank
      cases hm : (mergedOptions options).batchSize with
      | none => rfl
      | some b =>
          cases b with
          | fin n => rfl
          | inf => rw [hm] at _hb; simp [Option.getD, BatchSize.ltLen] at _hb
    omega

/-- Function `processBatchedLearnings` from `synthesisAgent.ts`, instrumented with
the model call count. -/
def processBatchedLearnings (ai : String → String) (tok : String → Nat)
    (learnings : List String) (prompt : String) (options : SynthesisOptions) :
    String × Nat :=
  let batchSize : BatchSize :=
    match options.batchSize with
    | some (.fin 0) => .fin 50
    | some b => b
    | none => .fin 50
  let batches :=
    match batchSize with
    | .fin b => chunkList b learnings
    | .inf => [learnings]
  let br := runBatches ai tok prompt options batches.length 0 batches
  if br.fst.length = 1 then (br.fst.headD "", br.snd)
  else
    let combinedLearnings := br.fst.enum.map
      (fun p => "Part " ++ toString (p.fst + 1) ++ " of " ++ toString br.fst.length
        ++ ": " ++ p.snd)
    let final := synthesizeLearnings ai tok combinedLearnings
      (prompt ++ " (Final synthesis of " ++ toString batches.length ++ " parts)")
      (some { options with batchSize := some .inf })
    (final.fst, br.snd + final.snd)
termination_by (1, learnings.length + 1, 0)
decreasing_by
  · exact Prod.Lex.right _ (Prod.Lex.left _ _ (by omega))
  · refine Prod.Lex.left _ _ ?_
    have h0 : synRank (some { options with batchSize := some BatchSize.inf }) = 0 := rfl
    omega

/-- The sequential `for` loop over batches in `processBatchedLearnings`
(`i` is the zero-based batch index, `total` the batch count). -/
def runBatches (ai : String → String) (tok : String → Nat) (prompt : String)
    (options : SynthesisOptions) (total : Nat) :
    Nat → List (List String) → List String × Nat
  | _, [] => ([], 0)
  | i, batch :: rest =>
    let batchPrompt := prompt ++ " (Part " ++ toString (i + 1) ++ " of "
      ++ toString total ++ ")"
    let r := synthesizeLearnings ai tok batch batchPrompt
      (some { options with batchSize := some .inf })
    let rest' := runBatches ai tok prompt options total (i + 1) rest
    (r.fst :: rest'.fst, r.snd + rest'.snd)
termination_by _ bs => (1, 0, bs.length + 1)
decreasing_by
  · refine Prod.Lex.left _ _ ?_
    have h0 : synRank (some { options with batchSize := some BatchSize.inf }) = 0 := rfl
    omega
  · exact Prod.Lex.right _ (Prod.Lex.right _ (by
      simp only [List.length_cons]
      omega))

end

/-- C8: on an empty learnings list the Batch Synthesizer returns the fixed
sentinel string and makes zero model calls, for every model capability,
tokenizer, prompt and options value. -/
theorem synthesizeLearnings_empty_sentinel (ai : String → String) (tok : String → Nat)
    (prompt : String) (options : Option SynthesisOptions) :
    synthesizeLearnings ai tok [] prompt options
      = ("No research findings to synthesize.", 0) := by
  rw [synthesizeLearnings]
  simp

/-- A `synthesizeLearnings` call whose explicit batch size is `Infinity`
(the combining passes) takes the single-shot path: exactly one model call. -/
theorem synthesizeLearnings_inf_count (ai : String → String) (tok : String → Nat)
    (learnings : List String) (hne : learnings ≠ []) (prompt : String)
    (o : SynthesisOptions) (ho : o.batchSize = some BatchSize.inf) :
    (synthesizeLearnings ai tok learnings prompt (some o)).snd = 1 := by
  have hmb : (mergedOptions (some o)).batchSize = some BatchSize.inf := by
    show (o.batchSize <|> some (BatchSize.fin 50)) = some BatchSize.inf
    rw [ho]
    rfl
  rw [synthesizeLearnings, dif_neg hne]
  simp [hmb, BatchSize.ltLen]

/-- Every batch processed by the sequential loop makes exactly one model
call (batching is disabled for batch calls), so the loop makes one call per
batch and returns one result per batch. -/
theorem runBatches_count (ai : String → String) (tok : String → Nat) (prompt : String)
    (options : SynthesisOptions) (total : Nat) :
    ∀ (batches : List (List String)), (∀ c ∈ batches, c ≠ []) → ∀ i : Nat,
      (runBatches ai tok prompt options total i batches).snd = batches.length ∧
      (runBatches ai tok prompt options total i batches).fst.length = batches.length := by
  intro batches
  induction batches with
  | nil => intro _ i; rw [runBatches]; exact ⟨rfl, rfl⟩
  | cons batch rest ih =>
      intro hne i
      rw [runBatches]
      dsimp only
      have h1 := synthesizeLearnings_inf_count ai tok batch (hne batch (by simp))
        (prompt ++ " (Part " ++ toString (i + 1) ++ " of " ++ toString total ++ ")")
        { options with batchSize := some BatchSize.inf } rfl
      obtain ⟨ih1, ih2⟩ := ih (fun c hc => hne c (by simp [hc])) (i + 1)
      constructor
      · rw [h1, ih1]
        simp only [List.length_cons]
        omega
      · simp only [List.length_cons, ih2]

/-- Number of contiguous batches produced by the slicing loop:
`ceil(n / b)`. -/
theorem chunkList_length (b : Nat) (hb : 1 ≤ b) (l : List String) :
    (chunkList b l).length = (l.length + b - 1) / b := by
  suffices H : ∀ n (l : List String), l.length ≤ n →
      (chunkList b l).length = (l.length + b - 1) / b from H l.length l le_rfl
  intro n
  induction n with
  | zero =>
      intro l hl
      have h0 : l = [] := List.length_eq_zero.mp (Nat.le_zero.mp hl)
      subst h0
      rw [chunkList]
      simp [Nat.div_eq_of_lt (by omega : b - 1 < b)]
  | succ n ih =>
      intro l hl
      cases l with
      | nil =>
          rw [chunkList]
          simp [Nat.div_eq_of_lt (by omega : b - 1 < b)]
      | cons x xs =>
          rw [chunkList, dif_neg (by omega : ¬ b = 0)]
          simp only [List.length_cons]
          rw [ih ((x :: xs).drop b) (by
            simp only [List.length_drop, List.length_cons]
            simp only [List.length_cons] at hl
            omega)]
          simp only [List.length_drop, List.length_cons]
          have hrhs : xs.length + 1 + b - 1 = (xs.length + 1 - 1) + b := by omega
          rw [hrhs, Nat.add_div_right _ (by omega : 0 < b)]
          by_cases hm : xs.length + 1 ≤ b
          · have hl1 : xs.length + 1 - b + b - 1 = b - 1 := by omega
            rw [hl1, Nat.div_eq_of_lt (by omega : b - 1 < b),
              Nat.div_eq_of_lt (by omega : xs.length + 1 - 1 < b)]
          · have hl1 : xs.length + 1 - b + b - 1 = (xs.length + 1 - 1) := by omega
            rw [hl1]

/-- Batches produced by the slicing loop are non-empty. -/
theorem chunkList_mem_ne_nil (b : Nat) (hb : 1 ≤ b) (l : List String) :
    ∀ c ∈ chunkList b l, c ≠ [] := by
  suffices H : ∀ n (l : List String), l.length ≤ n → ∀ c ∈ chunkList b l, c ≠ [] from
    H l.length l le_rfl
  intro n
  induction n with
  | zero =>
      intro l hl
      have h0 : l = [] := List.length_eq_zero.mp (Nat.le_zero.mp hl)
      subst h0
      rw [chunkList]
      simp
  | succ n ih =>
      intro l hl
      cases l with
      | nil => rw [chunkList]; simp
      | cons x xs =>
          rw [chunkList, dif_neg (by omega : ¬ b = 0)]
          intro c hc
          rw [List.mem_cons] at hc
          rcases hc with hc | hc
          · subst hc
            cases hb' : b with
            | zero => omega
            | succ m => simp [List.take]
          · exact ih ((x :: xs).drop b)
              (by
                simp only [List.length_drop, List.length_cons]
                simp only [List.length_cons] at hl
                omega) c hc

/-- With a finite positive batch size smaller than the input length, the
batched path makes one call per batch plus one combining call. -/
theorem processBatchedLearnings_count (ai : String → String) (tok : String → Nat)
    (prompt : String) (o : SynthesisOptions) (b : Nat)
    (ho : o.batchSize = some (BatchSize.fin b)) (hb : 1 ≤ b) (learnings : List String)
    (hlen : b < learnings.length) :
    (processBatchedLearnings ai tok learnings prompt o).snd
      = (learnings.length + b - 1) / b + 1 := by
  rw [processBatchedLearnings]
  have hbs : (match o.batchSize with
      | some (.fin 0) => BatchSize.fin 50
      | some b => b
      | none => BatchSize.fin 50) = BatchSize.fin b := by
    rw [ho]
    cases b with
    | zero => omega
    | succ m => rfl
  simp only [hbs]
  have hchlen := chunkList_length b hb learnings
  have hne := chunkList_mem_ne_nil b hb learnings
  obtain ⟨hc2, hf2⟩ := runBatches_count ai tok prompt o (chunkList b learnings).length
    (chunkList b learnings) hne 0
  have hge2 : 2 ≤ (chunkList b learnings).length := by
    rw [hchlen]
    rw [Nat.le_div_iff_mul_le (show 0 < b by omega)]
    omega
  rw [if_neg (by rw [hf2]; omega)]
  dsimp only
  have hcomb : ((runBatches ai tok prompt o (chunkList b learnings).length 0
      (chunkList b learnings)).fst.enum.map
        (fun p => "Part " ++ toString (p.fst + 1) ++ " of "
          ++ toString (runBatches ai tok prompt o (chunkList b learnings).length 0
            (chunkList b learnings)).fst.length ++ ": " ++ p.snd)) ≠ [] := by
    apply List.length_pos.mp
    rw [List.length_map, List.enum_length, hf2]
    omega
  rw [synthesizeLearnings_inf_count ai tok _ hcomb _
    { o with batchSize := some BatchSize.inf } rfl]
  rw [hc2, hchlen]

/-- C2: for a finite positive batch size `b`, the Batch Synthesizer makes
zero model calls on an empty list, exactly one call when `0 < n ≤ b`, and
exactly `ceil(n / b) + 1` calls when `n > b` (one per batch plus one
combining call, batching being disabled below), for every capability,
tokenizer, prompt and learnings list. -/
theorem synthesizeLearnings_call_count (ai : String → String) (tok : String → Nat)
    (prompt : String) (o : SynthesisOptions) (b : Nat)
    (ho : o.batchSize = some (BatchSize.fin b)) (hb : 1 ≤ b) (learnings : List String) :
    (synthesizeLearnings ai tok learnings prompt (some o)).snd =
      if learnings.length = 0 then 0
      else if learnings.length ≤ b then 1
      else (learnings.length + b - 1) / b + 1 := by
  by_cases h0 : learnings = []
  · subst h0
    rw [synthesizeLearnings]
    simp
  · have hmb : (mergedOptions (some o)).batchSize = some (BatchSize.fin b) := by
      show (o.batchSize <|> some (BatchSize.fin 50)) = some (BatchSize.fin b)
      rw [ho]
      rfl
    have hlen0 : learnings.length ≠ 0 := by
      simp [List.length_eq_zero, h0]
    rw [synthesizeLearnings, dif_neg h0]
    by_cases hlen : b < learnings.length
    · have hcond : ((mergedOptions (some o)).batchSize.getD (BatchSize.fin 50)).ltLen
          learnings.length = true := by
        rw [hmb]
        simp [BatchSize.ltLen, hlen]
      rw [dif_pos hcond]
      rw [processBatchedLearnings_count ai tok prompt _ b hmb hb learnings hlen]
      rw [if_neg hlen0, if_neg (by omega)]
    · have hcond : ¬ ((mergedOptions (some o)).batchSize.getD (BatchSize.fin 50)).ltLen
          learnings.length = true := by
        rw [hmb]
        simp [BatchSize.ltLen]
        omega
      rw [dif_neg hcond]
      rw [if_neg hlen0, if_pos (by omega)]

/-- C2 witness: batch size 1 on a two-element list. -/
theorem synthesizeLearnings_call_count_witness :
    ({ maxLength := none, tone := none, batchSize := some (BatchSize.fin 1) }
        : SynthesisOptions).batchSize = some (BatchSize.fin 1) ∧
    1 ≤ 1 ∧
    (synthesizeLearnings (fun _ => "t") (fun _ => 0) ["a", "b"] "p"
        (some { maxLength := none, tone := none, batchSize := some (BatchSize.fin 1) })).snd =
      if (["a", "b"] : List String).length = 0 then 0
      else if (["a", "b"] : List String).length ≤ 1 then 1
      else ((["a", "b"] : List String).length + 1 - 1) / 1 + 1 :=
  ⟨rfl, le_refl 1,
    synthesizeLearnings_call_count (fun _ => "t") (fun _ => 0) "p"
      { maxLength := none, tone := none, batchSize := some (BatchSize.fin 1) } 1 rfl
      (le_refl 1) ["a", "b"]⟩
